import Mathlib

/-!
Verification of the `alicloudapislim` Go library: two thin HTTP API clients,
a logistics-tracking client ("Wuliu", file `part_000`) and an Alicloud
marketplace client ("Market", file `market.go`).

The embedding models Go strings as Lean `String` where only comparison and
concatenation matter, and as byte lists (`List Nat`, each element < 256) where
percent-encoding and hashing are involved.  HTTP transport is modelled by an
explicit `Fetch` value describing the outcome of the single GET request each
operation performs; JSON decoding is modelled by the already-decoded typed
response (a malformed body is a decode error).  Go errors are their message
strings (`GoError`).
-/

/-- Go `error` values are modelled by their message string. -/
abbrev GoError := String

/-- Outcome of one HTTP GET as observed by the client code:
either the transport fails (`http.Client.Do` returns an error), or a response
arrives with some HTTP status code and a body whose JSON decoding at the
target type either succeeds (`Except.ok`) or fails (`Except.error`). -/
inductive Fetch (α : Type) where
  | netFailure (e : GoError)
  | response (status : Nat) (body : Except GoError α)

/-- Model of `WuliuClient.request` (part_000 lines 50-62): on transport error
return it unchanged; otherwise decode the body, ignoring the HTTP status code
entirely (the Go code never reads `resp.StatusCode`), and return the decode
result unchanged. -/
def wuliuRequest {α : Type} : Fetch α → Except GoError α
  | .netFailure e => .error e
  | .response _ body => body

/-- `WuliuProvider` (part_000 lines 20-23). -/
structure WuliuProvider where
  Code : String
  Name : String
deriving DecidableEq, Repr

/-- The calendar timestamp produced by Go `time.ParseInLocation` with layout
`2006-01-02 15:04:05`; only the parsed field values matter (the fixed UTC+8
zone attached by the code does not change them). -/
structure DateTime where
  year : Nat
  month : Nat
  day : Nat
  hour : Nat
  minute : Nat
  second : Nat
deriving DecidableEq, Repr

/-- The zero `time.Time` value: January 1 of year 1, 00:00:00. -/
def zeroDateTime : DateTime := ⟨1, 1, 1, 0, 0, 0⟩

/-- `WuliuStatusItem` (part_000 lines 39-42). -/
structure WuliuStatusItem where
  Desc : String
  Time : DateTime
deriving DecidableEq, Repr

/-- `WuliuStatus` (part_000 lines 25-37). -/
structure WuliuStatus where
  Code : String
  Number : String
  Status : String
  CompanyName : String
  CompanyLogo : String
  CompanyPhone : String
  CourierName : String
  CourierPhone : String
  UpdatedAt : DateTime
  TimeElapsed : String
  Items : List WuliuStatusItem
deriving DecidableEq, Repr

/-- Parse exactly `n` decimal digits, accumulating into `acc`. -/
def parseDigits : Nat → Nat → List Char → Option (Nat × List Char)
  | 0, acc, rest => some (acc, rest)
  | n + 1, acc, c :: rest =>
    if c.isDigit then parseDigits n (acc * 10 + (c.toNat - 48)) rest else none
  | _ + 1, _, [] => none

/-- Consume one expected literal character. -/
def expectChar (c : Char) : List Char → Option (List Char)
  | d :: rest => if d = c then some rest else none
  | [] => none

/-- Parse one or two decimal digits (Go `getnum` with `fixed = false`, used by
the hour element `15` of the reference layout). -/
def parseHourNum : List Char → Option (Nat × List Char)
  | c1 :: c2 :: rest =>
    if c1.isDigit then
      if c2.isDigit then some (10 * (c1.toNat - 48) + (c2.toNat - 48), rest)
      else some (c1.toNat - 48, c2 :: rest)
    else none
  | [c1] => if c1.isDigit then some (c1.toNat - 48, []) else none
  | [] => none

/-- Gregorian leap-year rule, as used by Go `time`. -/
def isLeap (y : Nat) : Bool := (y % 4 = 0 && y % 100 != 0) || y % 400 = 0

/-- Number of days in a month, as used by Go `time` for range validation. -/
def daysInMonth (y m : Nat) : Nat :=
  if m = 2 then (if isLeap y then 29 else 28)
  else if m = 4 || m = 6 || m = 9 || m = 11 then 30
  else 31

/-- Model of Go `time.ParseInLocation` with layout `2006-01-02 15:04:05`
(part_000 lines 195 and 198): a four-digit year, two-digit month and day, a
one- or two-digit hour, two-digit minute and second, with the literal
separators of the layout, no trailing text, and Go's range validation of
month, day (month- and leap-aware), hour, minute and second.  `none` models a
parse error, in which case the Go code uses the zero `time.Time`. -/
def parseDateTime (s : String) : Option DateTime := do
  let (y, r) ← parseDigits 4 0 s.data
  let r ← expectChar '-' r
  let (mo, r) ← parseDigits 2 0 r
  let r ← expectChar '-' r
  let (d, r) ← parseDigits 2 0 r
  let r ← expectChar ' ' r
  let (h, r) ← parseHourNum r
  let r ← expectChar ':' r
  let (mi, r) ← parseDigits 2 0 r
  let r ← expectChar ':' r
  let (se, r) ← parseDigits 2 0 r
  if r = [] && 1 ≤ mo && mo ≤ 12 && 1 ≤ d && d ≤ daysInMonth y mo
      && h ≤ 23 && mi ≤ 59 && se ≤ 59 then
    some ⟨y, mo, d, h, mi, se⟩
  else
    none

/-- Decoded response of `GET /getExpressList` (part_000 lines 76-80).  The
`result` JSON object is decoded into a Go map; the model keeps its entries as
an association list in an arbitrary order, since Go map iteration order is
unspecified. -/
structure ProvidersResp where
  status : String
  msg : String
  result : List (String × String)

/-- Ordering used by `GetProviders` via `sort.Slice` (part_000 line 95). -/
def providerLess (a b : WuliuProvider) : Prop := a.Code ≤ b.Code

instance : DecidableRel providerLess := fun a b => by
  unfold providerLess; infer_instance

instance : IsTotal WuliuProvider providerLess :=
  ⟨fun a b => le_total a.Code b.Code⟩

instance : IsTrans WuliuProvider providerLess :=
  ⟨fun _ _ _ h1 h2 => le_trans h1 h2⟩

/-- Model of `(*WuliuClient).GetProviders` (part_000 lines 72-99).  The
memoized `client.providers` field is passed and returned explicitly; the
returned `Bool` records whether an HTTP request was issued.  `sort.Slice`
with the comparator `providers[i].Code < providers[j].Code` is modelled by a
correct sort for that ordering. -/
def wuliuGetProviders (memo : List WuliuProvider) (fetch : Fetch ProvidersResp) :
    Except GoError (List WuliuProvider) × List WuliuProvider × Bool :=
  if memo ≠ [] then (.ok memo, memo, false)
  else
    match wuliuRequest fetch with
    | .error e => (.error e, memo, true)
    | .ok ret =>
      if ret.status ≠ "200" then
        (.error ("failed to get wuliu providers: status " ++ ret.status ++
          ", message " ++ ret.msg ++ " returned"), memo, true)
      else
        let providers := ret.result.map (fun kv => WuliuProvider.mk kv.1 kv.2)
        if providers ≠ [] then
          let sorted := List.insertionSort providerLess providers
          (.ok sorted, sorted, true)
        else
          (.ok providers, memo, true)

/-- One entry of the `list` array of `GET /exCompany` (part_000 lines 116-119). -/
structure ExCompanyItem where
  type : String
  name : String

/-- Decoded response of `GET /exCompany` (part_000 lines 112-120). -/
structure ExCompanyResp where
  status : String
  msg : String
  number : String
  list : List ExCompanyItem

/-- Model of `WuliuClient.GetProvidersForNumber` (part_000 lines 109-135). -/
def wuliuGetProvidersForNumber (fetch : Fetch ExCompanyResp) :
    Except GoError (List WuliuProvider) :=
  match wuliuRequest fetch with
  | .error e => .error e
  | .ok ret =>
    if ret.status ≠ "0" then
      .error ("failed to get wuliu provider: status " ++ ret.status ++
        ", message " ++ ret.msg ++ " returned")
    else
      .ok (ret.list.map (fun it => WuliuProvider.mk it.type it.name))

/-- One entry of the `result.list` array of `GET /kdi` (part_000 lines 155-158). -/
structure KdiItem where
  time : String
  status : String

/-- The `result` object of `GET /kdi` (part_000 lines 152-169). -/
structure KdiResult where
  number : String
  type : String
  list : List KdiItem
  deliverystatus : String
  issign : String
  expName : String
  expSite : String
  expPhone : String
  courier : String
  courierPhone : String
  updateTime : String
  takeTime : String
  logo : String

/-- Decoded response of `GET /kdi` (part_000 lines 149-170). -/
structure KdiResp where
  status : String
  msg : String
  result : KdiResult

/-- The delivery-status translation table of `GetStatusForNumber`
(part_000 lines 177-193): a Go `switch` over the `deliverystatus` string with
seven cases and no default, so any other code is returned unchanged. -/
def deliveryStatusText (s : String) : String :=
  if s = "0" then "快递收件(揽件)"
  else if s = "1" then "在途中"
  else if s = "2" then "正在派件"
  else if s = "3" then "已签收"
  else if s = "4" then "派送失败"
  else if s = "5" then "疑难件"
  else if s = "6" then "退件签收"
  else s

/-- Model of `WuliuClient.GetStatusForNumber` (part_000 lines 145-217):
failure status surfaces as an error; otherwise the decoded result is reshaped,
timestamps being parsed with errors ignored (a failed parse yields the zero
`time.Time`). -/
def wuliuGetStatusForNumber (fetch : Fetch KdiResp) : Except GoError WuliuStatus :=
  match wuliuRequest fetch with
  | .error e => .error e
  | .ok ret =>
    if ret.status ≠ "0" then
      .error ("failed to get wuliu status: status " ++ ret.status ++
        ", message " ++ ret.msg ++ " returned")
    else
      .ok
        { Code := ret.result.type
          Number := ret.result.number
          Status := deliveryStatusText ret.result.deliverystatus
          CompanyName := ret.result.expName
          CompanyLogo := ret.result.logo
          CompanyPhone := ret.result.expPhone
          CourierName := ret.result.courier
          CourierPhone := ret.result.courierPhone
          UpdatedAt := (parseDateTime ret.result.updateTime).getD zeroDateTime
          TimeElapsed := ret.result.takeTime
          Items := ret.result.list.map
            (fun it => WuliuStatusItem.mk it.status
              ((parseDateTime it.time).getD zeroDateTime)) }


/-!
The Market client (`market.go`).  Strings entering the signing pipeline are
modelled as byte lists, since percent-encoding, HMAC-SHA1 and base64 operate
on bytes.  The lexicographic order on byte lists (Go string comparison, as
used by `sort.Strings`) is Mathlib's lexicographic order on `List Nat`.
-/

/-- Go strings viewed as their byte sequence. -/
abbrev Bytes := List Nat

/-- Model of Go `sort.Strings` (market.go line 297): a correct ascending sort
for byte-lexicographic string comparison. -/
def sortStrings (keys : List Bytes) : List Bytes :=
  List.insertionSort (· ≤ ·) keys

/-- Unreserved bytes of Go `url.QueryEscape`: ASCII letters, digits and
`-`, `_`, `.`, `~` are emitted unchanged; every other byte is escaped. -/
def isUnreservedByte (c : Nat) : Bool :=
  (65 ≤ c && c ≤ 90) || (97 ≤ c && c ≤ 122) || (48 ≤ c && c ≤ 57) ||
    c = 45 || c = 95 || c = 46 || c = 126

/-- Uppercase hexadecimal digit, as a byte. -/
def hexUpper (n : Nat) : Nat := if n < 10 then 48 + n else 55 + n

/-- Model of `urlEncode` (market.go lines 285-287):
`url.QueryEscape` followed by replacing `+` with `%20`.  `QueryEscape` turns a
space into `+` (which the replacement then rewrites to `%20`) and escapes any
literal `+` to `%2B`, so the composition percent-encodes every byte that is
not unreserved, the space becoming `%20`. -/
def urlEncode (s : Bytes) : Bytes :=
  s.flatMap (fun c =>
    if isUnreservedByte c then [c]
    else [37, hexUpper (c / 16), hexUpper (c % 16)])

/-- The bytes of the string `Signature`. -/
def signatureKey : Bytes := [83, 105, 103, 110, 97, 116, 117, 114, 101]

/-- The keys of the parameter map with the key `Signature` removed
(market.go lines 290-296).  Parameter maps (`url.Values`) are modelled as
association lists whose order is arbitrary, since Go map iteration order is
unspecified. -/
def filteredKeys (params : List (Bytes × Bytes)) : List Bytes :=
  (params.map Prod.fst).filter (fun k => k ≠ signatureKey)

/-- Model of `params.Get(key)`: the value stored for `key`, or the empty
string when absent. -/
def getParam (params : List (Bytes × Bytes)) (k : Bytes) : Bytes :=
  ((params.find? (fun p => p.1 == k)).map Prod.snd).getD []

/-- One `key=value` entry of the canonical query string
(market.go line 300). -/
def queryEntry (params : List (Bytes × Bytes)) (k : Bytes) : Bytes :=
  urlEncode k ++ [61] ++ urlEncode (getParam params k)

/-- Model of `buildQueryString` (market.go lines 289-305): drop the
`Signature` key, sort the remaining keys, percent-encode each key and its
value into `key=value` entries and join them with `&`. -/
def buildQueryString (params : List (Bytes × Bytes)) : Bytes :=
  List.intercalate [38] ((sortStrings (filteredKeys params)).map (queryEntry params))

/-- Reduction modulo 2^32. -/
def w32 (x : Nat) : Nat := x % 4294967296

/-- Left rotation of a 32-bit word. -/
def rotl (n x : Nat) : Nat := w32 (x <<< n) ||| (x >>> (32 - n))

/-- Big-endian 32-bit words from a byte list (groups of four bytes). -/
def beWords : Bytes → List Nat
  | b0 :: b1 :: b2 :: b3 :: rest =>
    (((b0 * 256 + b1) * 256 + b2) * 256 + b3) :: beWords rest
  | _ => []

/-- The four big-endian bytes of a 32-bit word. -/
def wordBytes (x : Nat) : Bytes :=
  [x >>> 24 % 256, x >>> 16 % 256, x >>> 8 % 256, x % 256]

/-- SHA-1 message-schedule expansion: append one word derived from the words
3, 8, 14 and 16 positions back, `k` times. -/
def sha1Expand (w : List Nat) : Nat → List Nat
  | 0 => w
  | k + 1 =>
    sha1Expand (w ++ [rotl 1 ((w.getD (w.length - 3) 0) ^^^ (w.getD (w.length - 8) 0)
      ^^^ (w.getD (w.length - 14) 0) ^^^ (w.getD (w.length - 16) 0))]) k

/-- SHA-1 round function for round `t`. -/
def sha1F (t b c d : Nat) : Nat :=
  if t < 20 then (b &&& c) ||| ((b ^^^ 4294967295) &&& d)
  else if t < 40 then b ^^^ c ^^^ d
  else if t < 60 then (b &&& c) ||| (b &&& d) ||| (c &&& d)
  else b ^^^ c ^^^ d

/-- SHA-1 round constant for round `t`. -/
def sha1K (t : Nat) : Nat :=
  if t < 20 then 1518500249
  else if t < 40 then 1859775393
  else if t < 60 then 2400959708
  else 3395469782

/-- The five 32-bit working registers of SHA-1. -/
structure Sha1State where
  a : Nat
  b : Nat
  c : Nat
  d : Nat
  e : Nat

/-- One SHA-1 compression round. -/
def sha1Round (w : List Nat) (st : Sha1State) (t : Nat) : Sha1State :=
  { a := w32 (rotl 5 st.a + sha1F t st.b st.c st.d + st.e + sha1K t + w.getD t 0)
    b := st.a
    c := rotl 30 st.b
    d := st.c
    e := st.d }

/-- Process one 64-byte chunk. -/
def sha1Chunk (h : Sha1State) (chunk : Bytes) : Sha1State :=
  let w := sha1Expand (beWords chunk) 64
  let st := (List.range 80).foldl (sha1Round w) h
  { a := w32 (h.a + st.a)
    b := w32 (h.b + st.b)
    c := w32 (h.c + st.c)
    d := w32 (h.d + st.d)
    e := w32 (h.e + st.e) }

/-- The SHA-1 initialization vector. -/
def sha1Init : Sha1State :=
  ⟨1732584193, 4023233417, 2562383102, 271733878, 3285377520⟩

/-- SHA-1 padding: a `0x80` byte, zeros to 56 mod 64, then the message bit
length as a 64-bit big-endian integer. -/
def sha1PadMsg (msg : Bytes) : Bytes :=
  msg ++ [128] ++ List.replicate ((119 - msg.length % 64) % 64) 0 ++
    (List.range 8).map (fun i => ((8 * msg.length) >>> (56 - 8 * i)) % 256)

/-- Split a byte list into 64-byte chunks (the first argument is fuel, always
called with at least the length of the list). -/
def chunksOf64 : Nat → Bytes → List Bytes
  | 0, _ => []
  | n + 1, msg => if msg = [] then [] else msg.take 64 :: chunksOf64 n (msg.drop 64)

/-- SHA-1 of a byte list, producing the 20-byte digest. -/
def sha1 (msg : Bytes) : Bytes :=
  let padded := sha1PadMsg msg
  let st := (chunksOf64 padded.length padded).foldl sha1Chunk sha1Init
  wordBytes st.a ++ wordBytes st.b ++ wordBytes st.c ++ wordBytes st.d ++ wordBytes st.e

/-- HMAC-SHA1 (RFC 2104) with a 64-byte block size: the key is hashed if
longer than a block, zero-padded to the block size, and combined with the
inner (`0x36`) and outer (`0x5c`) pads. -/
def hmacSha1 (key msg : Bytes) : Bytes :=
  let k0 := if 64 < key.length then sha1 key else key
  let kp := k0 ++ List.replicate (64 - k0.length) 0
  sha1 ((kp.map (fun b => b ^^^ 92)) ++ sha1 ((kp.map (fun b => b ^^^ 54)) ++ msg))

/-- The base64 alphabet (standard encoding), as a byte. -/
def b64Char (n : Nat) : Nat :=
  if n < 26 then 65 + n
  else if n < 52 then 97 + (n - 26)
  else if n < 62 then 48 + (n - 52)
  else if n = 62 then 43
  else 47

/-- Standard base64 encoding with `=` padding (Go
`base64.StdEncoding.EncodeToString`), producing ASCII bytes. -/
def base64Encode : Bytes → Bytes
  | b0 :: b1 :: b2 :: rest =>
    b64Char (((b0 * 256 + b1) * 256 + b2) >>> 18) ::
      b64Char ((((b0 * 256 + b1) * 256 + b2) >>> 12) % 64) ::
      b64Char ((((b0 * 256 + b1) * 256 + b2) >>> 6) % 64) ::
      b64Char (((b0 * 256 + b1) * 256 + b2) % 64) :: base64Encode rest
  | [b0, b1] =>
    [b64Char ((b0 * 256 + b1) >>> 10), b64Char (((b0 * 256 + b1) >>> 4) % 64),
      b64Char (((b0 * 256 + b1) <<< 2) % 64), 61]
  | [b0] => [b64Char (b0 >>> 2), b64Char ((b0 <<< 4) % 64), 61, 61]
  | [] => []

/-- The bytes of the string `GET&%2F&`. -/
def getMethodBytes : Bytes := [71, 69, 84, 38, 37, 50, 70, 38]

/-- Model of `sign` (market.go lines 279-283): base64 of the HMAC-SHA1, keyed
by the secret followed by `&`, of `GET&%2F&` followed by the given query. -/
def marketSign (secret query : Bytes) : Bytes :=
  base64Encode (hmacSha1 (secret ++ [38]) (getMethodBytes ++ query))

/-- The signature computed by `MarketClient.request` (market.go lines
256-257): `sign(secret, urlEncode(buildQueryString(params)))`. -/
def marketSignature (secret : Bytes) (params : List (Bytes × Bytes)) : Bytes :=
  marketSign secret (urlEncode (buildQueryString params))

/-- Written from the specification's words: the canonical query lists all
parameters except the key `Signature`, in lexicographically ascending key
order (a listing supplied as `keysAscending`), each as
`percentEncode(key)=percentEncode(value)`, joined by `&`. -/
def specCanonicalQuery (params : List (Bytes × Bytes)) (keysAscending : List Bytes) : Bytes :=
  List.intercalate [38]
    (keysAscending.map (fun k => urlEncode k ++ [61] ++ urlEncode (getParam params k)))

/-- Known-answer check of the SHA-1 embedding: the digest of `abc`. -/
theorem sha1_abc_vector : sha1 [97, 98, 99] =
    [169, 153, 62, 54, 71, 6, 129, 106, 186, 62, 37, 113, 120, 80, 194, 108,
      156, 208, 216, 157] := by
  set_option maxRecDepth 100000 in rfl

/-- Known-answer check of the HMAC-SHA1 embedding: RFC 2202 test case 2
(key `Jefe`, data `what do ya want for nothing?`). -/
theorem hmacSha1_rfc2202_vector : hmacSha1 [74, 101, 102, 101]
    [119, 104, 97, 116, 32, 100, 111, 32, 121, 97, 32, 119, 97, 110, 116, 32,
      102, 111, 114, 32, 110, 111, 116, 104, 105, 110, 103, 63] =
    [239, 252, 223, 106, 229, 235, 47, 162, 210, 116, 22, 213, 241, 132, 223,
      156, 37, 154, 124, 121] := by
  set_option maxRecDepth 200000 in rfl

/-- Known-answer check of the base64 embedding: `Man`, `Ma` and `M`. -/
theorem base64_vectors : base64Encode [77, 97, 110] = [84, 87, 70, 117] ∧
    base64Encode [77, 97] = [84, 87, 69, 61] ∧
    base64Encode [77] = [84, 81, 61, 61] := by
  exact ⟨rfl, rfl, rfl⟩

/-- The `Code` and `Message` fields decoded from a non-200 Market response
body (market.go lines 269-273); a body that fails to decode leaves both
fields as the empty string, since the Go code ignores that decode error. -/
structure MarketErrorBody where
  Code : String
  Message : String

/-- What `MarketClient.request` observes after `http.Client.Do` succeeds: the
HTTP status, the error body decoded on the non-200 path, and the result of
decoding the body at the target type on the 200 path. -/
structure MarketHttp (α : Type) where
  status : Nat
  errBody : MarketErrorBody
  body : Except GoError α

/-- Model of the response handling of `MarketClient.request` (market.go lines
263-276): a transport failure is returned unchanged; a non-200 status becomes
an error built from the status and the error body's code and message; on a
200 status the decode result of the body is returned unchanged. -/
def marketRequest {α : Type} : Except GoError (MarketHttp α) → Except GoError α
  | .error e => .error e
  | .ok r =>
    if r.status ≠ 200 then
      .error ("server responded status " ++ toString r.status ++ " with code "
        ++ r.errBody.Code ++ " and message " ++ r.errBody.Message ++ " returned")
    else r.body

/-- `MarketProduct` (market.go lines 24-30); Go `int` fields are `Int`. -/
structure MarketProduct where
  Id : String
  Name : String
  Remaining : Int
  Used : Int
  Unit : String
deriving DecidableEq, Repr

/-- One entry of the `Result` array of `DescribeApiMetering`
(market.go lines 77-84). -/
structure MeteringItem where
  ProductName : String
  ProductCode : String
  TotalQuota : Int
  TotalUsage : Int
  Unit : String
deriving DecidableEq, Repr

/-- Decoded response of `DescribeApiMetering` (market.go lines 68-85). -/
structure MeteringResp where
  PageSize : Int
  Message : String
  Count : Int
  Code : String
  Success : Bool
  Result : List MeteringItem
deriving DecidableEq, Repr

/-- The reshaping of one metering page into `[]MarketProduct`
(market.go lines 93-102). -/
def convertItems (items : List MeteringItem) : List MarketProduct :=
  items.map (fun it =>
    { Id := it.ProductCode
      Name := it.ProductName
      Remaining := it.TotalQuota
      Used := it.TotalUsage
      Unit := it.Unit })

/-- The page numbers visited by the loop `for i := 2; i <= totalPages; i++`
(market.go line 104). -/
def pageRange (totalPages : Int) : List Int :=
  (List.range (totalPages - 1).toNat).map (fun k => (2 : Int) + k)

/-- Sequential combination of the accumulated pages with one recursive
result: products and fetched-page traces are concatenated; an error or fuel
exhaustion stops the walk (later iterations are ignored, as the Go loop
returns on the first error). -/
def combinePages (acc sub : Option (Except GoError (List MarketProduct × List Int))) :
    Option (Except GoError (List MarketProduct × List Int)) :=
  match acc, sub with
  | some (.ok (ps, tr)), some (.ok (qs, ur)) => some (.ok (ps ++ qs, tr ++ ur))
  | some (.ok _), some (.error e) => some (.error e)
  | some (.ok _), none => none
  | x, _ => x

/-- Model of `MarketClient.getProducts` (market.go lines 63-112), the
recursive page-walk.  `pages pageNum` is the outcome of `client.request` for
the page-`pageNum` metering request (cf. `marketRequest`).  The `Nat`
argument is fuel: `none` means the recursion does not terminate within that
fuel.  On success the result carries the accumulated products together with
the trace of page numbers fetched, in order.  `totalPages` is
`int(resp.Count / resp.PageSize)`, Go integer division truncating toward
zero (Go would panic if `PageSize` were zero; the model is only used with a
nonzero `PageSize`). -/
def getProductsFuel (pages : Int → Except GoError MeteringResp) :
    Nat → Int → Option (Except GoError (List MarketProduct × List Int))
  | 0, _ => none
  | fuel + 1, pageNum =>
    match pages pageNum with
    | .error e => some (.error e)
    | .ok resp =>
      if resp.Success = false then
        some (.error ("failed to get metering info: code " ++ resp.Code ++
          ", message " ++ resp.Message ++ " returned"))
      else
        ((pageRange (resp.Count.tdiv resp.PageSize)).map
            (fun i => getProductsFuel pages fuel i)).foldl
          combinePages (some (.ok (convertItems resp.Result, [pageNum])))

/-- Model of `MarketClient.GetProducts` (market.go lines 59-61): the walk
starts at page 1. -/
def marketGetProducts (pages : Int → Except GoError MeteringResp) (fuel : Nat) :
    Option (Except GoError (List MarketProduct × List Int)) :=
  getProductsFuel pages fuel 1

/-- `MarketProductOption` (market.go lines 39-42). -/
structure MarketProductOption where
  Code : String
  Name : String
deriving DecidableEq, Repr

/-- `MarketProductDetails` (market.go lines 32-37). -/
structure MarketProductDetails where
  Id : String
  Name : String
  Description : String
  Options : List MarketProductOption
deriving DecidableEq, Repr

/-- One `PropertyValue` entry of `DescribeProduct` (market.go lines 127-131). -/
structure PropertyValue where
  type : String
  DisplayName : String
  Value : String

/-- One `Property` entry of `DescribeProduct` (market.go lines 125-134); the
Go wrapper object `PropertyValues.PropertyValue` is flattened to the list. -/
structure SkuProperty where
  PropertyValues : List PropertyValue
  Key : String

/-- One `Module` entry of `DescribeProduct` (market.go lines 123-137); the Go
wrapper object `Properties.Property` is flattened to the list. -/
structure SkuModule where
  Properties : List SkuProperty
  Code : String

/-- One `ProductSku` entry of `DescribeProduct` (market.go lines 120-139); the
Go wrapper object `Modules.Module` is flattened to the list. -/
structure ProductSku where
  ChargeType : String
  Modules : List SkuModule

/-- Decoded response of `DescribeProduct` (market.go lines 118-145); the Go
wrapper object `ProductSkus.ProductSku` is flattened to the list. -/
structure DescribeProductResp where
  ProductSkus : List ProductSku
  Code : String
  ShortDescription : String
  Name : String
  type : String

/-- The nested option-collection loops of `GetProduct` (market.go lines
150-166): property values of properties keyed `package_version` inside
modules coded `package_version`, appended in order. -/
def extractOptions (resp : DescribeProductResp) : List MarketProductOption :=
  resp.ProductSkus.foldl (fun acc sku =>
    sku.Modules.foldl (fun acc m =>
      if m.Code = "package_version" then
        m.Properties.foldl (fun acc p =>
          if p.Key = "package_version" then
            p.PropertyValues.foldl
              (fun acc v => acc ++ [MarketProductOption.mk v.Value v.DisplayName]) acc
          else acc) acc
      else acc) acc) []

/-- Model of `MarketClient.GetProduct` (market.go lines 114-173): a request
error is returned unchanged (the decoded response itself carries no
success/failure field and is never checked); otherwise the decoded response
is reshaped. -/
def marketGetProduct (r : Except GoError (MarketHttp DescribeProductResp)) :
    Except GoError MarketProductDetails :=
  match marketRequest r with
  | .error e => .error e
  | .ok resp =>
    .ok
      { Id := resp.Code
        Name := resp.Name
        Description := resp.ShortDescription
        Options := extractOptions resp }

/-- Decoded response of `DescribePrice` (market.go lines 187-195). -/
structure DescribePriceResp where
  ProductCode : String
  TradePrice : Float
  OriginalPrice : Float
  DiscountPrice : Float
  Currency : String
  Duration : Int
  Cycle : String

/-- `MarketProductOptionWithPrice` (market.go lines 44-50). -/
structure MarketProductOptionWithPrice where
  Id : String
  Code : String
  Duration : Int
  Cycle : String
  Price : String

/-- Model of `MarketClient.GetPrice` (market.go lines 175-207): a request
error is returned unchanged (the decoded response carries no success/failure
field and is never checked); otherwise the decoded response is reshaped.  Go
formats `resp.TradePrice` (a float64) with `fmt.Sprintf("%.2f", ...)`;
floating-point formatting is outside the shallow embedding and is passed in
as the parameter `fmt2`. -/
def marketGetPrice (fmt2 : Float → String) (id optionCode : String)
    (r : Except GoError (MarketHttp DescribePriceResp)) :
    Except GoError MarketProductOptionWithPrice :=
  match marketRequest r with
  | .error e => .error e
  | .ok resp =>
    .ok
      { Id := id
        Code := optionCode
        Duration := resp.Duration
        Cycle := resp.Cycle
        Price := fmt2 resp.TradePrice }

/-- A Go `interface{}` value as far as `CreateOrder` inspects it: either a
string or anything else. -/
inductive GoValue where
  | str (s : String)
  | other
deriving DecidableEq, Repr

/-- Model of `url.Values.Set` on an association list: replace the value of an
existing key, otherwise add the pair. -/
def setParam (ps : List (String × String)) (k v : String) : List (String × String) :=
  if ps.any (fun p => p.1 = k) then ps.map (fun p => if p.1 = k then (k, v) else p)
  else ps ++ [(k, v)]

/-- Model of the overrides loop of `MarketClient.CreateOrder` (market.go
lines 229-235): `for i := 0; i < len(overrides)/2; i++` walks consecutive
pairs; a pair is applied with `params.Set` only when both type assertions to
`string` succeed; with an odd number of overrides the trailing element is
never read. -/
def createOrderApplyOverrides : List GoValue → List (String × String) → List (String × String)
  | .str a :: .str b :: rest, ps => createOrderApplyOverrides rest (setParam ps a b)
  | .str _ :: .other :: rest, ps => createOrderApplyOverrides rest ps
  | .other :: _ :: rest, ps => createOrderApplyOverrides rest ps
  | [_], ps => ps
  | [], ps => ps

/-- Written from the claim's words: the consecutive `(key, value)` pairs of
the override list both of whose elements are strings, in order. -/
def overridePairs : List GoValue → List (String × String)
  | .str a :: .str b :: rest => (a, b) :: overridePairs rest
  | .str _ :: .other :: rest => overridePairs rest
  | .other :: _ :: rest => overridePairs rest
  | [_] => []
  | [] => []

/-- Helper for the overrides loop: appending one element to an even-length
override list leaves the extracted string pairs unchanged (the trailing
element is never read). -/
theorem overridePairs_append_even :
    ∀ (ov : List GoValue) (x : GoValue), ov.length % 2 = 0 →
      overridePairs (ov ++ [x]) = overridePairs ov := by
  intro ov
  induction ov using overridePairs.induct with
  | case1 a b rest ih =>
    intro x h
    simp only [List.length_cons] at h
    simp only [List.cons_append, overridePairs]
    rw [show rest.append [x] = rest ++ [x] from rfl, ih x (by omega)]
  | case2 s rest ih =>
    intro x h
    simp only [List.length_cons] at h
    simp only [List.cons_append, overridePairs]
    rw [show rest.append [x] = rest ++ [x] from rfl, ih x (by omega)]
  | case3 head rest ih =>
    intro x h
    simp only [List.length_cons] at h
    simp only [List.cons_append, overridePairs]
    rw [show rest.append [x] = rest ++ [x] from rfl, ih x (by omega)]
  | case4 head =>
    intro x h
    simp at h
  | case5 =>
    intro x _
    cases x <;> rfl

/-- C10: `CreateOrder` applies its variadic overrides as consecutive
`(key, value)` pairs set on the request parameters only when both elements of
a pair are strings; a pair containing a non-string element is skipped without
effect, and an unpaired trailing element is ignored.  The loop equals a fold
of `url.Values.Set` over exactly the both-string consecutive pairs, and with
an even-length list an appended trailing element changes nothing. -/
theorem createOrder_overrides_pairs :
    (∀ (ov : List GoValue) (ps : List (String × String)),
      createOrderApplyOverrides ov ps =
        (overridePairs ov).foldl (fun ps p => setParam ps p.1 p.2) ps) ∧
    (∀ (ov : List GoValue) (x : GoValue) (ps : List (String × String)),
      ov.length % 2 = 0 →
      createOrderApplyOverrides (ov ++ [x]) ps = createOrderApplyOverrides ov ps) := by
  have main : ∀ (ov : List GoValue) (ps : List (String × String)),
      createOrderApplyOverrides ov ps =
        (overridePairs ov).foldl (fun ps p => setParam ps p.1 p.2) ps := by
    intro ov
    induction ov using overridePairs.induct with
    | case1 a b rest ih =>
      intro ps
      simp only [createOrderApplyOverrides, overridePairs, List.foldl]
      exact ih (setParam ps a b)
    | case2 s rest ih =>
      intro ps
      simp only [createOrderApplyOverrides, overridePairs]
      exact ih ps
    | case3 head rest ih =>
      intro ps
      simp only [createOrderApplyOverrides, overridePairs]
      exact ih ps
    | case4 head =>
      intro ps
      cases head <;> rfl
    | case5 =>
      intro ps
      rfl
  refine ⟨main, fun ov x ps h => ?_⟩
  rw [main, main, overridePairs_append_even ov x h]

/-- Witness for C10 at a concrete override list. -/
theorem createOrder_overrides_pairs_witness :
    createOrderApplyOverrides [GoValue.str "A", GoValue.str "B", GoValue.other, GoValue.str "C"] [] =
      (overridePairs [GoValue.str "A", GoValue.str "B", GoValue.other, GoValue.str "C"]).foldl
        (fun ps p => setParam ps p.1 p.2) [] ∧
    ([GoValue.str "A", GoValue.str "B"] : List GoValue).length % 2 = 0 ∧
    createOrderApplyOverrides ([GoValue.str "A", GoValue.str "B"] ++ [GoValue.other]) [] =
      createOrderApplyOverrides [GoValue.str "A", GoValue.str "B"] [] :=
  ⟨createOrder_overrides_pairs.1 _ _, by decide,
    createOrder_overrides_pairs.2 _ _ _ (by decide)⟩

/-- C7: `GetProviders` memoizes the provider list.  If a call returns a
non-empty list, that list is exactly what is stored in the client afterward;
and every call starting from a non-empty stored list returns that same list,
leaves it unchanged, and issues no HTTP request (the only mutation of the
stored list is the first successful non-empty fetch, since every other
operation of the client has a value receiver and never touches the field). -/
theorem getProviders_memoization (memo l : List WuliuProvider) (fetch : Fetch ProvidersResp)
    (h : (wuliuGetProviders memo fetch).1 = Except.ok l) (hne : l ≠ []) :
    (wuliuGetProviders memo fetch).2.1 = l ∧
    ∀ fetch2 : Fetch ProvidersResp, wuliuGetProviders l fetch2 = (Except.ok l, l, false) := by
  constructor
  · by_cases hm : memo = []
    · subst hm
      cases fetch with
      | netFailure e => simp [wuliuGetProviders, wuliuRequest] at h
      | response st body =>
        cases body with
        | error e => simp [wuliuGetProviders, wuliuRequest] at h
        | ok ret =>
          by_cases hs : ret.status = "200"
          · by_cases hp : ret.result.map (fun kv => WuliuProvider.mk kv.1 kv.2) = []
            · simp [wuliuGetProviders, wuliuRequest, hs, hp] at h
              exact absurd h hne
            · simp [wuliuGetProviders, wuliuRequest, hs, hp] at h ⊢
              exact h
          · simp [wuliuGetProviders, wuliuRequest, hs] at h
    · simp [wuliuGetProviders, hm] at h ⊢
      exact h
  · intro fetch2
    simp [wuliuGetProviders, hne]

/-- Witness for C7: a client that already stores a non-empty list answers
from the memo. -/
theorem getProviders_memoization_witness :
    (wuliuGetProviders [WuliuProvider.mk "sf" "SF"] (Fetch.netFailure "down")).1 =
      Except.ok [WuliuProvider.mk "sf" "SF"] ∧
    ([WuliuProvider.mk "sf" "SF"] : List WuliuProvider) ≠ [] ∧
    ((wuliuGetProviders [WuliuProvider.mk "sf" "SF"] (Fetch.netFailure "down")).2.1 =
        [WuliuProvider.mk "sf" "SF"] ∧
      ∀ fetch2 : Fetch ProvidersResp,
        wuliuGetProviders [WuliuProvider.mk "sf" "SF"] fetch2 =
          (Except.ok [WuliuProvider.mk "sf" "SF"], [WuliuProvider.mk "sf" "SF"], false)) :=
  ⟨by simp [wuliuGetProviders], by simp,
    getProviders_memoization _ _ _ (by simp [wuliuGetProviders]) (by simp)⟩

/-- C8: every provider list returned by `GetProviders` is sorted in ascending
order of the `Code` field, whatever the order of the decoded map entries, and
the stored memo list stays sorted (it starts empty, hence sorted). -/
theorem getProviders_sorted (memo : List WuliuProvider) (fetch : Fetch ProvidersResp)
    (hm : List.Sorted providerLess memo) :
    (∀ l, (wuliuGetProviders memo fetch).1 = Except.ok l → List.Sorted providerLess l) ∧
    List.Sorted providerLess (wuliuGetProviders memo fetch).2.1 := by
  by_cases hmem : memo = []
  · subst hmem
    cases fetch with
    | netFailure e =>
      refine ⟨fun l h => ?_, ?_⟩
      · simp [wuliuGetProviders, wuliuRequest] at h
      · simp [wuliuGetProviders, wuliuRequest]
    | response st body =>
      cases body with
      | error e =>
        refine ⟨fun l h => ?_, ?_⟩
        · simp [wuliuGetProviders, wuliuRequest] at h
        · simp [wuliuGetProviders, wuliuRequest]
      | ok ret =>
        by_cases hs : ret.status = "200"
        · by_cases hp : ret.result.map (fun kv => WuliuProvider.mk kv.1 kv.2) = []
          · refine ⟨fun l h => ?_, ?_⟩
            · simp [wuliuGetProviders, wuliuRequest, hs, hp] at h
              subst h
              exact List.sorted_nil
            · simp [wuliuGetProviders, wuliuRequest, hs, hp]
          · refine ⟨fun l h => ?_, ?_⟩
            · simp [wuliuGetProviders, wuliuRequest, hs, hp] at h
              rw [← h]
              exact List.sorted_insertionSort providerLess _
            · simp [wuliuGetProviders, wuliuRequest, hs, hp]
              exact List.sorted_insertionSort providerLess _
        · refine ⟨fun l h => ?_, ?_⟩
          · simp [wuliuGetProviders, wuliuRequest, hs] at h
          · simp [wuliuGetProviders, wuliuRequest, hs]
  · refine ⟨fun l h => ?_, ?_⟩
    · simp [wuliuGetProviders, hmem] at h
      rw [← h]
      exact hm
    · simpa [wuliuGetProviders, hmem] using hm

/-- Witness for C8: a fresh client receiving map entries in descending order. -/
theorem getProviders_sorted_witness :
    List.Sorted providerLess [] ∧
    ((∀ l, (wuliuGetProviders []
        (Fetch.response 200 (Except.ok ⟨"200", "", [("zt", "ZT"), ("sf", "SF")]⟩))).1 =
          Except.ok l → List.Sorted providerLess l) ∧
      List.Sorted providerLess (wuliuGetProviders []
        (Fetch.response 200 (Except.ok ⟨"200", "", [("zt", "ZT"), ("sf", "SF")]⟩))).2.1) :=
  ⟨List.sorted_nil, getProviders_sorted _ _ List.sorted_nil⟩

/-- C9: `GetStatusForNumber` never fails because of a malformed timestamp:
with vendor status `0` the call succeeds, and whenever `UpdateTime` (or a
history item's `Time`) does not parse in the `2006-01-02 15:04:05` layout the
corresponding field is the zero time value. -/
theorem getStatus_time_parse_failure_ok (hst : Nat) (ret : KdiResp)
    (h : ret.status = "0") :
    ∃ st, wuliuGetStatusForNumber (Fetch.response hst (Except.ok ret)) = Except.ok st ∧
      (parseDateTime ret.result.updateTime = none → st.UpdatedAt = zeroDateTime) ∧
      (∀ it ∈ ret.result.list, parseDateTime it.time = none →
        WuliuStatusItem.mk it.status zeroDateTime ∈ st.Items) := by
  simp only [wuliuGetStatusForNumber, wuliuRequest]
  rw [if_neg (by simp [h])]
  exact ⟨_, rfl, fun hp => by simp [hp],
    fun it hit hp => List.mem_map.mpr ⟨it, hit, by simp [hp]⟩⟩

/-- Witness for C9: a status-`0` response whose timestamps are garbage. -/
theorem getStatus_time_parse_failure_ok_witness :
    (("0" : String) = "0") ∧
    parseDateTime "not a time" = none ∧
    (∃ st, wuliuGetStatusForNumber (Fetch.response 200 (Except.ok
        ⟨"0", "", ⟨"1", "sf", [⟨"not a time", "picked up"⟩], "9", "0", "", "", "",
          "", "", "not a time", "", ""⟩⟩)) = Except.ok st ∧
      (parseDateTime "not a time" = none → st.UpdatedAt = zeroDateTime) ∧
      (∀ it ∈ [(⟨"not a time", "picked up"⟩ : KdiItem)], parseDateTime it.time = none →
        WuliuStatusItem.mk it.status zeroDateTime ∈ st.Items)) :=
  ⟨rfl, by decide, getStatus_time_parse_failure_ok 200 _ rfl⟩

/-- Counterexample to C6 as stated: there is no six-element set of codes
outside of which `deliveryStatusText` passes its argument through unchanged —
the translation table maps seven codes (`0` through `6`), each to a display
string different from the code itself. -/
theorem statusText_not_six_codes :
    ¬ ∃ S : Finset String, S.card = 6 ∧ ∀ s ∉ S, deliveryStatusText s = s := by
  rintro ⟨S, hcard, hpass⟩
  have hsub : ({"0", "1", "2", "3", "4", "5", "6"} : Finset String) ⊆ S := by
    intro s hs
    by_contra hns
    have hps := hpass s hns
    fin_cases hs <;> exact absurd hps (by decide)
  have h7 : ({"0", "1", "2", "3", "4", "5", "6"} : Finset String).card = 7 := by decide
  have hle := Finset.card_le_card hsub
  omega

/-- C6 amended: the table of `GetStatusForNumber` maps each of the SEVEN
codes `0`..`6` to its display string, any code outside that set passes
through unchanged, and the returned `Status` field is exactly the table
applied to the vendor's `deliverystatus`. -/
theorem statusText_seven_codes_passthrough :
    (deliveryStatusText "0" = "快递收件(揽件)" ∧ deliveryStatusText "1" = "在途中" ∧
      deliveryStatusText "2" = "正在派件" ∧ deliveryStatusText "3" = "已签收" ∧
      deliveryStatusText "4" = "派送失败" ∧ deliveryStatusText "5" = "疑难件" ∧
      deliveryStatusText "6" = "退件签收") ∧
    (∀ s : String, s ∉ (["0", "1", "2", "3", "4", "5", "6"] : List String) →
      deliveryStatusText s = s) ∧
    (∀ (hst : Nat) (ret : KdiResp), ret.status = "0" →
      ∃ st, wuliuGetStatusForNumber (Fetch.response hst (Except.ok ret)) = Except.ok st ∧
        st.Status = deliveryStatusText ret.result.deliverystatus) := by
  refine ⟨by decide, ?_, ?_⟩
  · intro s hs
    simp only [List.mem_cons, List.not_mem_nil, or_false, not_or] at hs
    obtain ⟨h0, h1, h2, h3, h4, h5, h6⟩ := hs
    simp [deliveryStatusText, h0, h1, h2, h3, h4, h5, h6]
  · intro hst ret h
    simp only [wuliuGetStatusForNumber, wuliuRequest]
    rw [if_neg (by simp [h])]
    exact ⟨_, rfl, rfl⟩

/-- Witness for C6 (amended claim) at the undocumented code `X` and a
concrete status-`0` response with delivery status `3`. -/
theorem statusText_seven_codes_passthrough_witness :
    (("X" : String) ∉ (["0", "1", "2", "3", "4", "5", "6"] : List String)) ∧
    deliveryStatusText "X" = "X" ∧
    (("0" : String) = "0") ∧
    (∃ st, wuliuGetStatusForNumber (Fetch.response 200 (Except.ok
        ⟨"0", "", ⟨"1", "sf", [], "3", "1", "", "", "", "", "", "", "", ""⟩⟩)) =
          Except.ok st ∧
      st.Status = deliveryStatusText "3") :=
  ⟨by decide, statusText_seven_codes_passthrough.2.1 "X" (by decide), rfl,
    statusText_seven_codes_passthrough.2.2 200 _ rfl⟩

/-- Counterexample to C5 as stated: the Wuliu client does not surface a
non-200 HTTP status as an error — its `request` never inspects the status
code, so a 500 response with a well-formed body succeeds. -/
theorem wuliu_non200_not_error :
    wuliuRequest (Fetch.response 500 (Except.ok true)) = Except.ok true ∧
    (500 : Nat) ≠ 200 :=
  ⟨rfl, by decide⟩

/-- C5 amended: network failures and malformed JSON bodies are propagated
unchanged by both clients; a non-200 HTTP status is an error only for the
Market client (reported with the status and the response body's code and
message), while the Wuliu client ignores the HTTP status and returns the
body's decode result regardless. -/
theorem transport_errors_propagation :
    (∀ (α : Type) (e : GoError), wuliuRequest (Fetch.netFailure (α := α) e) = Except.error e) ∧
    (∀ (α : Type) (st : Nat) (e : GoError),
      wuliuRequest (Fetch.response (α := α) st (Except.error e)) = Except.error e) ∧
    (∀ (α : Type) (st : Nat) (v : α),
      wuliuRequest (Fetch.response st (Except.ok v)) = Except.ok v) ∧
    (∀ (α : Type) (e : GoError), marketRequest (α := α) (Except.error e) = Except.error e) ∧
    (∀ (α : Type) (r : MarketHttp α), r.status ≠ 200 →
      marketRequest (Except.ok r) =
        Except.error ("server responded status " ++ toString r.status ++ " with code "
          ++ r.errBody.Code ++ " and message " ++ r.errBody.Message ++ " returned")) ∧
    (∀ (α : Type) (eb : MarketErrorBody) (e : GoError),
      marketRequest (Except.ok (MarketHttp.mk (α := α) 200 eb (Except.error e))) =
        Except.error e) := by
  refine ⟨fun α e => rfl, fun α st e => rfl, fun α st v => rfl, fun α e => rfl,
    fun α r hr => ?_, fun α eb e => by simp [marketRequest]⟩
  simp [marketRequest, hr]

/-- Witness for C5 (amended claim) at concrete transport outcomes. -/
theorem transport_errors_propagation_witness :
    wuliuRequest (Fetch.netFailure (α := Bool) "dial tcp: timeout") =
      Except.error "dial tcp: timeout" ∧
    wuliuRequest (Fetch.response (α := Bool) 200 (Except.error "invalid character")) =
      Except.error "invalid character" ∧
    wuliuRequest (Fetch.response 404 (Except.ok false)) = Except.ok false ∧
    marketRequest (α := Bool) (Except.error "dial tcp: refused") =
      Except.error "dial tcp: refused" ∧
    ((MarketHttp.mk (α := Bool) 403 (MarketErrorBody.mk "Forbidden" "denied")
        (Except.ok true)).status ≠ 200 ∧
      marketRequest (Except.ok (MarketHttp.mk (α := Bool) 403
          (MarketErrorBody.mk "Forbidden" "denied") (Except.ok true))) =
        Except.error ("server responded status " ++ toString (403 : Nat) ++ " with code "
          ++ "Forbidden" ++ " and message " ++ "denied" ++ " returned")) ∧
    marketRequest (Except.ok (MarketHttp.mk (α := Bool) 200
        (MarketErrorBody.mk "" "") (Except.error "unexpected end of JSON input"))) =
      Except.error "unexpected end of JSON input" :=
  ⟨transport_errors_propagation.1 Bool _,
    transport_errors_propagation.2.1 Bool 200 _,
    transport_errors_propagation.2.2.1 Bool 404 false,
    transport_errors_propagation.2.2.2.1 Bool _,
    ⟨by decide, transport_errors_propagation.2.2.2.2.1 Bool _ (by decide)⟩,
    transport_errors_propagation.2.2.2.2.2 Bool _ _⟩

/-- C4: every operation surfaces a vendor-reported failure as an error
carrying the vendor's code/status and message verbatim.  `GetProviders`,
`GetProvidersForNumber`, `GetStatusForNumber` and `getProducts` check a
success/status field of the decoded 200 response; `GetProduct` and `GetPrice`
decode responses with no such field, so for them the vendor's code and
message surface through the non-200 branch of `MarketClient.request`, whose
error they propagate unchanged. -/
theorem vendor_failures_surfaced :
    (∀ (hst : Nat) (ret : ProvidersResp), ret.status ≠ "200" →
      (wuliuGetProviders [] (Fetch.response hst (Except.ok ret))).1 =
        Except.error ("failed to get wuliu providers: status " ++ ret.status ++
          ", message " ++ ret.msg ++ " returned")) ∧
    (∀ (hst : Nat) (ret : ExCompanyResp), ret.status ≠ "0" →
      wuliuGetProvidersForNumber (Fetch.response hst (Except.ok ret)) =
        Except.error ("failed to get wuliu provider: status " ++ ret.status ++
          ", message " ++ ret.msg ++ " returned")) ∧
    (∀ (hst : Nat) (ret : KdiResp), ret.status ≠ "0" →
      wuliuGetStatusForNumber (Fetch.response hst (Except.ok ret)) =
        Except.error ("failed to get wuliu status: status " ++ ret.status ++
          ", message " ++ ret.msg ++ " returned")) ∧
    (∀ (pages : Int → Except GoError MeteringResp) (fuel : Nat) (pn : Int)
        (resp : MeteringResp), pages pn = Except.ok resp → resp.Success = false →
      getProductsFuel pages (fuel + 1) pn =
        some (Except.error ("failed to get metering info: code " ++ resp.Code ++
          ", message " ++ resp.Message ++ " returned"))) ∧
    (∀ r : MarketHttp DescribeProductResp, r.status ≠ 200 →
      marketGetProduct (Except.ok r) =
        Except.error ("server responded status " ++ toString r.status ++ " with code "
          ++ r.errBody.Code ++ " and message " ++ r.errBody.Message ++ " returned")) ∧
    (∀ (fmt2 : Float → String) (id optionCode : String)
        (r : MarketHttp DescribePriceResp), r.status ≠ 200 →
      marketGetPrice fmt2 id optionCode (Except.ok r) =
        Except.error ("server responded status " ++ toString r.status ++ " with code "
          ++ r.errBody.Code ++ " and message " ++ r.errBody.Message ++ " returned")) := by
  refine ⟨?_, ?_, ?_, ?_, ?_, ?_⟩
  · intro hst ret h
    simp [wuliuGetProviders, wuliuRequest, h]
  · intro hst ret h
    simp [wuliuGetProvidersForNumber, wuliuRequest, h]
  · intro hst ret h
    simp [wuliuGetStatusForNumber, wuliuRequest, h]
  · intro pages fuel pn resp hp hs
    simp [getProductsFuel, hp, hs]
  · intro r h
    simp [marketGetProduct, marketRequest, h]
  · intro fmt2 id optionCode r h
    simp [marketGetPrice, marketRequest, h]

/-- Witness for C4 at concrete vendor failure responses for all six
operations. -/
theorem vendor_failures_surfaced_witness :
    (wuliuGetProviders [] (Fetch.response 200 (Except.ok ⟨"500", "busy", []⟩))).1 =
      Except.error ("failed to get wuliu providers: status " ++ "500" ++
        ", message " ++ "busy" ++ " returned") ∧
    wuliuGetProvidersForNumber (Fetch.response 200 (Except.ok ⟨"205", "no record", "1", []⟩)) =
      Except.error ("failed to get wuliu provider: status " ++ "205" ++
        ", message " ++ "no record" ++ " returned") ∧
    wuliuGetStatusForNumber (Fetch.response 200 (Except.ok
        ⟨"201", "bad number", ⟨"", "", [], "", "", "", "", "", "", "", "", "", ""⟩⟩)) =
      Except.error ("failed to get wuliu status: status " ++ "201" ++
        ", message " ++ "bad number" ++ " returned") ∧
    getProductsFuel (fun _ => Except.ok ⟨10, "quota exceeded", 0, "Throttling", false, []⟩) (0 + 1) 1 =
      some (Except.error ("failed to get metering info: code " ++ "Throttling" ++
        ", message " ++ "quota exceeded" ++ " returned")) ∧
    marketGetProduct (Except.ok ⟨400, ⟨"InvalidCode", "no such product"⟩,
        Except.error "unused"⟩) =
      Except.error ("server responded status " ++ toString (400 : Nat) ++ " with code "
        ++ "InvalidCode" ++ " and message " ++ "no such product" ++ " returned") ∧
    marketGetPrice (fun _ => "") "p" "v1" (Except.ok ⟨500, ⟨"InternalError", "oops"⟩,
        Except.error "unused"⟩) =
      Except.error ("server responded status " ++ toString (500 : Nat) ++ " with code "
        ++ "InternalError" ++ " and message " ++ "oops" ++ " returned") :=
  ⟨vendor_failures_surfaced.1 200 _ (by decide),
    vendor_failures_surfaced.2.1 200 _ (by decide),
    vendor_failures_surfaced.2.2.1 200 _ (by decide),
    vendor_failures_surfaced.2.2.2.1 _ 0 1
      ⟨10, "quota exceeded", 0, "Throttling", false, []⟩ rfl rfl,
    vendor_failures_surfaced.2.2.2.2.1 _ (by decide),
    vendor_failures_surfaced.2.2.2.2.2 _ "p" "v1" _ (by decide)⟩

/-- C3: for every parameter map and secret, the Market request signature is
base64 of the HMAC-SHA1, keyed by `secret + "&"`, of `GET&%2F&` followed by
the percent-encoded canonical query; and the canonical query is any listing
`L` of all parameter keys except `Signature` in lexicographically ascending
order, rendered as `percentEncode(key)=percentEncode(value)` joined by `&`
(`specCanonicalQuery`, written from the spec's words).  Ascending listings
are unique, so the code's sorted rendering equals the spec's. -/
theorem marketSignature_spec (secret : Bytes) (params : List (Bytes × Bytes))
    (L : List Bytes) (hperm : List.Perm L (filteredKeys params))
    (hsort : List.Sorted (· ≤ ·) L) :
    marketSignature secret params =
      base64Encode (hmacSha1 (secret ++ [38])
        (getMethodBytes ++ urlEncode (specCanonicalQuery params L))) := by
  have hL : sortStrings (filteredKeys params) = L :=
    List.eq_of_perm_of_sorted ((List.perm_insertionSort _ _).trans hperm.symm)
      (List.sorted_insertionSort (· ≤ ·) (filteredKeys params)) hsort
  unfold marketSignature marketSign buildQueryString specCanonicalQuery
  rw [hL]
  rfl

/-- Witness for C3 at a concrete two-parameter map (plus a `Signature` entry
that canonicalization must drop) and its ascending key listing. -/
theorem marketSignature_spec_witness :
    List.Perm [[97], [98]]
      (filteredKeys [([98], [50]), ([97], [49]), (signatureKey, [120])]) ∧
    List.Sorted (· ≤ ·) ([[97], [98]] : List Bytes) ∧
    marketSignature [107, 101, 121] [([98], [50]), ([97], [49]), (signatureKey, [120])] =
      base64Encode (hmacSha1 ([107, 101, 121] ++ [38])
        (getMethodBytes ++ urlEncode (specCanonicalQuery
          [([98], [50]), ([97], [49]), (signatureKey, [120])] [[97], [98]]))) :=
  ⟨by decide, by decide,
    marketSignature_spec [107, 101, 121] _ [[97], [98]] (by decide) (by decide)⟩

/-- A synthetic metering page with `Count = 3` and `PageSize = 2`: two pages
of data exist (page 2 holds the third item), and the same response is
returned for every page request. -/
def meteringPartialPage : MeteringResp :=
  ⟨2, "", 3, "", true, [⟨"API product", "p-1", 10, 1, "count"⟩]⟩

/-- Every page request of the `Count = 3, PageSize = 2` service returns the
fixed page. -/
def pagesPartialPage : Int → Except GoError MeteringResp :=
  fun _ => Except.ok meteringPartialPage

/-- C2 fails on the code: with `Count = 3` and `PageSize = 2` the smallest
`n` with `n * PageSize >= Count` is 2, yet `GetProducts` terminates after
fetching only page 1 (`totalPages = int(3 / 2) = 1`, so the loop body never
runs): the fetched-page trace is `[1]`, not `[1, 2]`. -/
theorem getProducts_page_walk_stops_early :
    marketGetProducts pagesPartialPage 2 =
      some (Except.ok (convertItems meteringPartialPage.Result, [1])) ∧
    (1 : Int) * meteringPartialPage.PageSize < meteringPartialPage.Count ∧
    meteringPartialPage.Count ≤ (2 : Int) * meteringPartialPage.PageSize ∧
    ([1] : List Int) ≠ [1, 2] :=
  ⟨rfl, by decide, by decide, by decide⟩

/-- A synthetic metering page with `Count = 4` and `PageSize = 2`: exactly
two full pages of data, the same response returned for every page request. -/
def meteringTwoFullPages : MeteringResp :=
  ⟨2, "", 4, "", true, [⟨"API product", "p-1", 10, 1, "count"⟩]⟩

/-- Every page request of the `Count = 4, PageSize = 2` service returns the
fixed page. -/
def pagesTwoFullPages : Int → Except GoError MeteringResp :=
  fun _ => Except.ok meteringTwoFullPages

/-- The page-2 walk never terminates: each visit to page 2 computes
`totalPages = 2` again and re-enters the loop `for i := 2; i <= totalPages`,
calling `getProducts(ctx, 2)` recursively, for any amount of fuel. -/
theorem getProductsFuel_twoFullPages_page2 (fuel : Nat) :
    getProductsFuel pagesTwoFullPages fuel 2 = none := by
  induction fuel with
  | zero => rfl
  | succ n ih =>
    have step : getProductsFuel pagesTwoFullPages (n + 1) 2 =
        combinePages
          (some (Except.ok (convertItems meteringTwoFullPages.Result, [2])))
          (getProductsFuel pagesTwoFullPages n 2) := rfl
    rw [step, ih]
    rfl

/-- C1 fails on the code: for the synthetic two-full-page response
(`Count = 4 > PageSize = 2 > 0` on every page), `GetProducts` does not
terminate — the model returns `none` (fuel exhaustion) for every fuel,
because page 1 calls page 2 and every visit to page 2 recursively re-walks
pages `2..totalPages`, including page 2 itself. -/
theorem getProducts_diverges_on_two_full_pages (fuel : Nat) :
    marketGetProducts pagesTwoFullPages fuel = none := by
  cases fuel with
  | zero => rfl
  | succ n =>
    have step : marketGetProducts pagesTwoFullPages (n + 1) =
        combinePages
          (some (Except.ok (convertItems meteringTwoFullPages.Result, [1])))
          (getProductsFuel pagesTwoFullPages n 2) := rfl
    rw [step, getProductsFuel_twoFullPages_page2 n]
    rfl
